import Mathlib

/-!
Verification development for the mysql_scanner extension core:
connection-string parsing with environment fallback, the MySQL/logical
type mapper, identifier/literal quoting, the catalog mirror (cache), and
the filter-pushdown translator.  Each definition is a shallow embedding
of the corresponding C++ function; machine strings are modelled as Lean
`String` (lists of characters), fallible code returns `Except Unit`.
-/

namespace MySQLScanner

/-- The backtick character, used by `writeIdentifier`. -/
def backtickChar : Char := Char.ofNat 96

/-- The single-quote character, used by `writeLiteral`. -/
def singleQuoteChar : Char := Char.ofNat 39

/-- The backslash character. -/
def backslashChar : Char := Char.ofNat 92

/-- Character-list core of `StringUtil::Replace(text, quote, "\" + quote)`
for a single-character needle: every occurrence of `quote` is replaced by
a backslash followed by the quote; all other characters are kept. -/
def escapeQuotesChars (quote : Char) : List Char → List Char
  | [] => []
  | c :: rest =>
    if c = quote then backslashChar :: c :: escapeQuotesChars quote rest
    else c :: escapeQuotesChars quote rest

/-- `MySQLUtils::EscapeQuotes`: escapes every occurrence of `quote` in
`text` with a preceding backslash (and escapes nothing else). -/
def escapeQuotes (text : String) (quote : Char) : String :=
  ⟨escapeQuotesChars quote text.data⟩

/-- `MySQLUtils::WriteQuoted`: escapes all occurrences of `quote` with a
backslash and wraps the result in `quote` characters. -/
def writeQuoted (text : String) (quote : Char) : String :=
  String.singleton quote ++ escapeQuotes text quote ++ String.singleton quote

/-- `MySQLUtils::WriteIdentifier`: backtick-quotes an identifier. -/
def writeIdentifier (identifier : String) : String :=
  writeQuoted identifier backtickChar

/-- `MySQLUtils::WriteLiteral`: single-quote-quotes a literal. -/
def writeLiteral (identifier : String) : String :=
  writeQuoted identifier singleQuoteChar

/-- Escaping as the specification words it (used only to compare the code
against the claim): every embedded `quote` AND every embedded backslash is
escaped by a preceding backslash. -/
def specEscapeQuoteAndBackslash (quote : Char) (text : List Char) : List Char :=
  text.flatMap fun c =>
    if c = quote ∨ c = backslashChar then [backslashChar, c] else [c]

/-- The claimed form of `writeIdentifier` (escapes backticks and backslashes). -/
def specWriteIdentifier (s : String) : String :=
  ⟨backtickChar :: specEscapeQuoteAndBackslash backtickChar s.data ++ [backtickChar]⟩

/-- The claimed form of `writeLiteral` (escapes single quotes and backslashes). -/
def specWriteLiteral (s : String) : String :=
  ⟨singleQuoteChar :: specEscapeQuoteAndBackslash singleQuoteChar s.data ++ [singleQuoteChar]⟩

/-- Escaping with only the quote character escaped, written in the
flat-map style of the specification (the amended claim). -/
def specEscapeQuoteOnly (quote : Char) (text : List Char) : List Char :=
  text.flatMap fun c => if c = quote then [backslashChar, c] else [c]

/-- Checks whether `needle` is a prefix of `hay` (character lists). -/
def charsHavePrefix : List Char → List Char → Bool
  | [], _ => true
  | _ :: _, [] => false
  | a :: as, b :: bs => a = b && charsHavePrefix as bs

/-- Checks whether `needle` occurs as a contiguous substring of `hay`,
the semantics of `StringUtil::Contains` / `string::find != npos`. -/
def charsHaveSubstr (needle : List Char) : List Char → Bool
  | [] => charsHavePrefix needle []
  | c :: t => charsHavePrefix needle (c :: t) || charsHaveSubstr needle t

/-- `StringUtil::Contains(hay, needle)`. -/
def strContains (hay needle : String) : Bool :=
  charsHaveSubstr needle.data hay.data

/-- The engine's logical type representation (`duckdb::LogicalType`),
restricted to the type ids that appear in the mysql_scanner type mapper;
`other` summarizes the remaining ids, which the mapper treats uniformly
through its default branch. -/
inductive LogicalType where
  | boolean
  | tinyint
  | smallint
  | integer
  | bigint
  | utinyint
  | usmallint
  | uinteger
  | ubigint
  | hugeint
  | float
  | double
  | decimal (width scale : Int)
  | date
  | time
  | timestamp
  | timestamp_tz
  | timestamp_sec
  | timestamp_ms
  | timestamp_ns
  | varchar
  | blob
  | interval
  | list (child : LogicalType)
  | struct (children : List LogicalType)
  | map (key value : LogicalType)
  | union (members : List LogicalType)
deriving Repr

/-- `MySQLUtils::ToMySQLType`: converts a logical type to the logical type
used for the MySQL side.  Composite kinds raise `NotImplementedException`
(modelled as `Except.error`); the three non-microsecond timestamp
precisions collapse to `timestamp`; `hugeint` widens to `double`; the
listed scalar kinds pass through unchanged; everything else becomes
`varchar`. -/
def toMySQLType : LogicalType → Except Unit LogicalType
  | .boolean => .ok .boolean
  | .smallint => .ok .smallint
  | .integer => .ok .integer
  | .bigint => .ok .bigint
  | .tinyint => .ok .tinyint
  | .utinyint => .ok .utinyint
  | .usmallint => .ok .usmallint
  | .uinteger => .ok .uinteger
  | .ubigint => .ok .ubigint
  | .float => .ok .float
  | .double => .ok .double
  | .blob => .ok .blob
  | .date => .ok .date
  | .decimal w s => .ok (.decimal w s)
  | .timestamp => .ok .timestamp
  | .timestamp_tz => .ok .timestamp_tz
  | .varchar => .ok .varchar
  | .list _ => .error ()
  | .struct _ => .error ()
  | .map _ _ => .error ()
  | .union _ => .error ()
  | .timestamp_sec => .ok .timestamp
  | .timestamp_ms => .ok .timestamp
  | .timestamp_ns => .ok .timestamp
  | .hugeint => .ok .double
  | _ => .ok .varchar

/-- Remote column metadata (`duckdb::MySQLTypeData`). -/
structure MySQLTypeData where
  type_name : String
  column_type : String
  precision : Int
  scale : Int
deriving DecidableEq, Repr

/-- The session settings the type mapper consults through
`ClientContext::TryGetCurrentSetting`: `none` models an absent setting,
`some b` a setting present with boolean value `b`. -/
structure SessionSettings where
  mysql_tinyint1_as_boolean : Option Bool
  mysql_bit1_as_boolean : Option Bool
deriving DecidableEq, Repr

/-- `MySQLUtils::TypeToLogicalType`: maps remote column metadata to the
engine's logical type, honoring the two boolean session settings. -/
def typeToLogicalType (ctx : SessionSettings) (t : MySQLTypeData) : LogicalType :=
  if t.type_name = "tinyint" then
    if t.column_type = "tinyint(1)" && ctx.mysql_tinyint1_as_boolean == some true then
      .boolean
    else if strContains t.column_type "unsigned" then .utinyint
    else .tinyint
  else if t.type_name = "smallint" then
    if strContains t.column_type "unsigned" then .usmallint else .smallint
  else if t.type_name = "mediumint" || t.type_name = "int" then
    if strContains t.column_type "unsigned" then .uinteger else .integer
  else if t.type_name = "bigint" then
    if strContains t.column_type "unsigned" then .ubigint else .bigint
  else if t.type_name = "float" then .float
  else if t.type_name = "double" then .double
  else if t.type_name = "date" then .date
  else if t.type_name = "time" then .varchar
  else if t.type_name = "timestamp" then .timestamp_tz
  else if t.type_name = "year" then .integer
  else if t.type_name = "datetime" then .timestamp
  else if t.type_name = "decimal" then
    if t.precision > 0 && t.precision ≤ 38 then .decimal t.precision t.scale
    else .double
  else if t.type_name = "json" then .varchar
  else if t.type_name = "enum" then .varchar
  else if t.type_name = "set" then .varchar
  else if t.type_name = "bit" then
    if t.column_type = "bit(1)" && ctx.mysql_bit1_as_boolean == some true then
      .boolean
    else .blob
  else if t.type_name = "blob" || t.type_name = "binary" || t.type_name = "varbinary" ||
          t.type_name = "geometry" || t.type_name = "point" ||
          t.type_name = "linestring" || t.type_name = "polygon" ||
          t.type_name = "multipoint" || t.type_name = "multilinestring" ||
          t.type_name = "multipolygon" || t.type_name = "geomcollection" then .blob
  else if t.type_name = "varchar" || t.type_name = "mediumtext" ||
          t.type_name = "longtext" || t.type_name = "text" || t.type_name = "enum" ||
          t.type_name = "char" then .varchar
  else .varchar

/-- `StringUtil::CharacterIsSpace` (also the whitespace set skipped by
`std::stoi`). -/
def isSpaceChar (c : Char) : Bool :=
  c = ' ' || c = Char.ofNat 9 || c = Char.ofNat 10 || c = Char.ofNat 11 ||
  c = Char.ofNat 12 || c = Char.ofNat 13

/-- ASCII lower-casing of one character (`std::tolower` in the C locale). -/
def asciiLower (c : Char) : Char :=
  if 'A' ≤ c ∧ c ≤ 'Z' then Char.ofNat (c.toNat + 32) else c

/-- `StringUtil::Lower`. -/
def strLower (s : String) : String :=
  ⟨s.data.map asciiLower⟩

/-- Drops leading whitespace characters. -/
def skipSpaces (l : List Char) : List Char :=
  l.dropWhile isSpaceChar

/-- The quoted-value scan of `ParseValue` (after the opening double quote
has been consumed): scans up to the closing quote, unescaping `\\` and
`\"`; errors on a trailing backslash, an invalid escape, or a missing
closing quote.  Returns the value and the remaining input. -/
def parseQuotedValue : List Char → Except Unit (List Char × List Char)
  | [] => .error ()
  | c :: rest =>
    if c = '"' then .ok ([], rest)
    else if c = backslashChar then
      match rest with
      | [] => .error ()
      | c2 :: rest2 =>
        if c2 = backslashChar ∨ c2 = '"' then
          (fun p => (c2 :: p.1, p.2)) <$> parseQuotedValue rest2
        else .error ()
    else (fun p => (c :: p.1, p.2)) <$> parseQuotedValue rest

/-- The unquoted-value scan of `ParseValue`: takes characters until a
space, an equality sign, or the end of the input. -/
def parseUnquotedValue : List Char → (List Char × List Char)
  | [] => ([], [])
  | c :: rest =>
    if c = '=' ∨ isSpaceChar c then ([], c :: rest)
    else
      let p := parseUnquotedValue rest
      (c :: p.1, p.2)

/-- `ParseValue`: skips leading spaces; `none` when the input is
exhausted, otherwise the parsed (quoted or unquoted) value together with
the remaining input; errors propagate from the quoted scan. -/
def parseValue (l : List Char) : Except Unit (Option (List Char × List Char)) :=
  match skipSpaces l with
  | [] => .ok none
  | c :: rest =>
    if c = '"' then (fun p => some p) <$> parseQuotedValue rest
    else .ok (some (parseUnquotedValue (c :: rest)))

/-- `std::stoi`: skips leading whitespace, accepts an optional sign and a
non-empty run of decimal digits; errors when no digits are present
(`std::invalid_argument`) or the value falls outside the range of `int`
(`std::out_of_range`). -/
def stoiChars (l : List Char) : Except Unit Int :=
  let l1 := skipSpaces l
  let signed : Int × List Char :=
    match l1 with
    | c :: rest =>
      if c = '-' then (-1, rest) else if c = '+' then (1, rest) else (1, l1)
    | [] => (1, l1)
  let ds := signed.2.takeWhile Char.isDigit
  if ds.isEmpty then .error ()
  else
    let mag : Nat := ds.foldl (fun acc c => acc * 10 + (c.toNat - 48)) 0
    let v : Int := signed.1 * (mag : Int)
    if v > 2147483647 ∨ v < -2147483648 then .error () else .ok v

/-- `ParsePort`: parses the value with `std::stoi` and checks it against
the bounds `PORT_MIN = 0` and `PORT_MAX = 65353` as written in the
source (note: the source's upper bound is 65353, not 65535). -/
def parsePort (value : String) : Except Unit Nat := do
  let v ← stoiChars value.data
  if v < 0 ∨ v > 65353 then .error ()
  else .ok v.toNat

/-- `duckdb::MySQLConnectionParameters` with its field defaults
(`client_flag` is `CLIENT_COMPRESS | CLIENT_IGNORE_SIGPIPE |
CLIENT_MULTI_STATEMENTS`). -/
structure MySQLConnectionParameters where
  host : String := ""
  user : String := ""
  passwd : String := ""
  db : String := ""
  port : Nat := 0
  unix_socket : String := ""
  workload : String := ""
  client_flag : Nat := 32 + 4096 + 65536
deriving DecidableEq, Repr

/-- Insertion into the `unordered_set<string> set_options`. -/
def setInsert (s : List String) (x : String) : List String :=
  if x ∈ s then s else x :: s

/-- One iteration of the key dispatch in `ParseConnectionParameters`
(lines 97-123): stores the value into the matching field and records the
canonical option name in `set_options`; unrecognized keys error. -/
def applyOption (key value : String) (r : MySQLConnectionParameters)
    (set_options : List String) :
    Except Unit (MySQLConnectionParameters × List String) :=
  if key = "host" then
    .ok ({ r with host := value }, setInsert set_options "host")
  else if key = "user" then
    .ok ({ r with user := value }, setInsert set_options "user")
  else if key = "passwd" ∨ key = "password" then
    .ok ({ r with passwd := value }, setInsert set_options "password")
  else if key = "db" ∨ key = "database" then
    .ok ({ r with db := value }, setInsert set_options "database")
  else if key = "port" then do
    let p ← parsePort value
    .ok ({ r with port := p }, setInsert set_options "port")
  else if key = "socket" ∨ key = "unix_socket" then
    .ok ({ r with unix_socket := value }, setInsert set_options "socket")
  else if key = "workload" then
    .ok ({ r with workload := value }, setInsert set_options "workload")
  else .error ()

/-- The `while` loop of `ParseConnectionParameters`: parses `key=value`
pairs and applies them.  `fuel` bounds the number of iterations; every
iteration consumes at least the `=` character, so `length + 1` fuel is
always enough. -/
def parseOptionsLoop : Nat → List Char → MySQLConnectionParameters → List String →
    Except Unit (MySQLConnectionParameters × List String)
  | 0, _, _, _ => .error ()
  | fuel + 1, l, r, s =>
    match parseValue l with
    | .error _ => .error ()
    | .ok none => .ok (r, s)
    | .ok (some (key, rest)) =>
      match rest with
      | [] => .error ()
      | c :: rest2 =>
        if c = '=' then
          match parseValue rest2 with
          | .error _ => .error ()
          | .ok none => .error ()
          | .ok (some (value, rest3)) =>
            match applyOption (strLower (String.mk key)) (String.mk value) r s with
            | .error _ => .error ()
            | .ok (r2, s2) => parseOptionsLoop fuel rest3 r2 s2
        else .error ()

/-- The DSN-parsing phase of `ParseConnectionParameters` (everything
before the environment-variable block): yields the partially-filled
record and the `set_options` set. -/
def parsePhase (dsn : String) :
    Except Unit (MySQLConnectionParameters × List String) :=
  parseOptionsLoop (dsn.data.length + 1) dsn.data {} []

/-- The environment-fallback block of `ParseConnectionParameters`
(lines 125-146): each field not present in `set_options` is overwritten
from its environment variable when that variable is present (`getenv`
returning non-null); the port value read from the environment passes
through `ParsePort`. -/
def fillEnv (env : String → Option String) (r : MySQLConnectionParameters)
    (set_options : List String) : Except Unit MySQLConnectionParameters := do
  let host := if "host" ∈ set_options then r.host else (env "MYSQL_HOST").getD r.host
  let passwd := if "password" ∈ set_options then r.passwd else (env "MYSQL_PWD").getD r.passwd
  let user := if "user" ∈ set_options then r.user else (env "MYSQL_USER").getD r.user
  let db := if "database" ∈ set_options then r.db else (env "MYSQL_DATABASE").getD r.db
  let unix_socket :=
    if "socket" ∈ set_options then r.unix_socket
    else (env "MYSQL_UNIX_PORT").getD r.unix_socket
  let port ←
    if "port" ∈ set_options then pure r.port
    else
      match env "MYSQL_TCP_PORT" with
      | none => pure r.port
      | some v => parsePort v
  .ok { r with host := host, user := user, passwd := passwd, db := db,
               unix_socket := unix_socket, port := port }

/-- `MySQLUtils::ParseConnectionParameters`, with the process environment
passed explicitly as a lookup function. -/
def parseConnectionParameters (env : String → Option String) (dsn : String) :
    Except Unit MySQLConnectionParameters := do
  let (r, s) ← parsePhase dsn
  fillEnv env r s

/-- Driver arguments assembled by `MySQLUtils::Connect` for the first
`mysql_real_connect` call; a `none` models a NULL pointer argument. -/
structure MySQLDriverArgs where
  host : Option String
  user : Option String
  passwd : Option String
  db : Option String
  port : Nat
  unix_socket : Option String
  client_flag : Nat
deriving DecidableEq, Repr

/-- `std::string::substr(1)` (all content here is single-byte). -/
def strDrop1 (s : String) : String :=
  ⟨s.data.drop 1⟩

/-- The `empty() ? nullptr : c_str()` idiom of `Connect`. -/
def optOfString (s : String) : Option String :=
  if s = "" then none else some s

/-- The argument assembly of `MySQLUtils::Connect` (lines 157-174): the
`db` argument is computed from `config.host` plus the workload tag, and
each empty string becomes a NULL argument. -/
def connectArgs (config : MySQLConnectionParameters) : MySQLDriverArgs :=
  let workload_param := if config.workload = "" then "" else "workload=" ++ config.workload
  let db_with_workload :=
    if workload_param = "" then config.host
    else if strContains config.host "?" then
      config.host ++ "&" ++ strDrop1 workload_param
    else config.host ++ "?" ++ workload_param
  ⟨optOfString config.host, optOfString config.user, optOfString config.passwd,
   optOfString db_with_workload, config.port, optOfString config.unix_socket,
   config.client_flag⟩

/-- A catalog entry as stored by the mirror: its name plus an identity
tag standing for the rest of the object. -/
structure CatalogEntry where
  name : String
  id : Nat
deriving DecidableEq, Repr

/-- Lookup in an exact-keyed association map (`entries`). -/
def findExact {α : Type} : List (String × α) → String → Option α
  | [], _ => none
  | (k, v) :: rest, key => if k = key then some v else findExact rest key

/-- `std::map::insert`: inserts only when the key is not yet present
(never overwrites). -/
def insertNew {α : Type} (m : List (String × α)) (k : String) (v : α) :
    List (String × α) :=
  if (findExact m k).isSome then m else (k, v) :: m

/-- `std::map::erase(key)` on an exact-keyed map. -/
def eraseExact {α : Type} (m : List (String × α)) (k : String) :
    List (String × α) :=
  m.filter fun p => p.1 ≠ k

/-- Lookup in a `case_insensitive_map_t` (`entry_map`): key comparison is
ASCII-case-insensitive; the full matching pair is returned. -/
def findCI {α : Type} : List (String × α) → String → Option (String × α)
  | [], _ => none
  | (k, v) :: rest, key =>
    if strLower k = strLower key then some (k, v) else findCI rest key

/-- `case_insensitive_map_t::insert`: inserts only when no
case-insensitively equal key is present (never overwrites). -/
def insertCINew {α : Type} (m : List (String × α)) (k : String) (v : α) :
    List (String × α) :=
  if (findCI m k).isSome then m else (k, v) :: m

/-- The state of `MySQLCatalogSet`.  The shipped header predates the
`entry_map` member used by `mysql_catalog_set.cpp`; the member kinds
follow the spec's data model (`entries: name → CatalogEntry` exact-keyed,
`nameIndex: lowercase(name) → canonical name` case-insensitive), which is
the only reading under which the cpp's case-insensitive fallback in
`GetEntry` is meaningful. -/
structure MySQLCatalogSet where
  entries : List (String × CatalogEntry)
  entry_map : List (String × String)
  is_loaded : Bool
deriving DecidableEq, Repr

/-- A freshly constructed `MySQLCatalogSet` (`is_loaded = false`). -/
def emptyCatalogSet : MySQLCatalogSet :=
  ⟨[], [], false⟩

/-- The lookup section of `MySQLCatalogSet::GetEntry` (lines 14-31):
exact lookup in `entries`, then a case-insensitive fallback through
`entry_map` to recover the stored name and retry. -/
def lookupEntry (s : MySQLCatalogSet) (name : String) : Option CatalogEntry :=
  match findExact s.entries name with
  | some e => some e
  | none =>
    match findCI s.entry_map name with
    | none => none
    | some (_, stored) =>
      match findExact s.entries stored with
      | none => none
      | some e => some e

/-- The state update of `MySQLCatalogSet::CreateEntry`: inserts the name
into `entry_map` and the entry into `entries` (both inserts keep an
existing binding). -/
def createEntryState (e : CatalogEntry) (s : MySQLCatalogSet) : MySQLCatalogSet :=
  { s with entry_map := insertCINew s.entry_map e.name e.name,
           entries := insertNew s.entries e.name e }

/-- `MySQLCatalogSet::CreateEntry`: throws on an empty name, otherwise
inserts and returns the (non-owning reference to the) entry. -/
def createEntry (e : CatalogEntry) (s : MySQLCatalogSet) :
    Except Unit (CatalogEntry × MySQLCatalogSet) :=
  if e.name = "" then .error () else .ok (e, createEntryState e s)

/-- The catalog entry kinds that reach `DropEntry`. -/
inductive CatalogType where
  | schema_entry
  | table_entry
  | view_entry
deriving DecidableEq, Repr

/-- `CatalogTypeToString` for the kinds above. -/
def catalogTypeToString : CatalogType → String
  | .schema_entry => "SCHEMA"
  | .table_entry => "TABLE"
  | .view_entry => "VIEW"

/-- `duckdb::OnEntryNotFound`. -/
inductive OnEntryNotFound where
  | throw_exception
  | return_null
deriving DecidableEq, Repr

/-- `duckdb::DropInfo`, restricted to the fields `DropEntry` reads. -/
structure DropInfo where
  type : CatalogType
  name : String
  if_not_found : OnEntryNotFound
  cascade : Bool
deriving DecidableEq, Repr

/-- The DROP statement built by `MySQLCatalogSet::DropEntry`
(lines 35-45). -/
def dropQuery (info : DropInfo) : String :=
  let q := "DROP " ++ catalogTypeToString info.type ++ " "
  let q := if info.if_not_found = .return_null then q ++ " IF EXISTS " else q
  let q := q ++ writeIdentifier info.name
  if info.type ≠ .schema_entry ∧ info.cascade then q ++ " CASCADE" else q

/-- `MySQLCatalogSet::DropEntry`: submits the DROP statement through the
transaction's query channel (modelled as the `query` oracle); only when
that call returns without throwing is the entry erased from `entries`
(`entry_map` is not touched).  The returned state is the state after the
call, also when the query throws. -/
def dropEntry (query : String → Except Unit Unit) (info : DropInfo)
    (s : MySQLCatalogSet) : Except Unit Unit × MySQLCatalogSet :=
  match query (dropQuery info) with
  | .error e => (.error e, s)
  | .ok _ => (.ok (), { s with entries := eraseExact s.entries info.name })

/-- The outcome of one `LoadEntries` (discovery) invocation: the entries
it created before finishing or throwing, and whether it threw. -/
structure LoadOutcome where
  created : List CatalogEntry
  thrown : Bool
deriving Repr

/-- Entry population performed by discovery through `CreateEntry`; an
empty name would make `CreateEntry` throw, which the oracle's `thrown`
flag accounts for, so such an entry adds nothing here. -/
def populate (es : List CatalogEntry) (s : MySQLCatalogSet) : MySQLCatalogSet :=
  es.foldl (fun s e => if e.name = "" then s else createEntryState e s) s

/-- The lazy-load preamble shared by `GetEntry` and `Scan` (lines 10-13
and 55-58): when not yet loaded, `is_loaded` is set to `true` first and
`LoadEntries` runs afterwards; an exception from `LoadEntries` leaves the
flag set and keeps whatever entries were already populated. -/
def ensureLoaded (load : LoadOutcome) (s : MySQLCatalogSet) :
    Except Unit Unit × MySQLCatalogSet :=
  if s.is_loaded then (.ok (), s)
  else
    let s1 := populate load.created { s with is_loaded := true }
    if load.thrown then (.error (), s1) else (.ok (), s1)

/-- `MySQLCatalogSet::GetEntry`, with `LoadEntries` as an oracle. -/
def getEntry (load : LoadOutcome) (name : String) (s : MySQLCatalogSet) :
    Except Unit (Option CatalogEntry) × MySQLCatalogSet :=
  match ensureLoaded load s with
  | (.error e, s1) => (.error e, s1)
  | (.ok _, s1) => (.ok (lookupEntry s1 name), s1)

/-- `MySQLCatalogSet::Scan`, with `LoadEntries` as an oracle; the
callback sees each entry of `entries` in order. -/
def scanEntries (load : LoadOutcome) (s : MySQLCatalogSet) :
    Except Unit (List CatalogEntry) × MySQLCatalogSet :=
  match ensureLoaded load s with
  | (.error e, s1) => (.error e, s1)
  | (.ok _, s1) => (.ok (s1.entries.map Prod.snd), s1)

/-- `MySQLCatalogSet::ClearEntries`: empties both maps and resets
`is_loaded`. -/
def clearEntries (_s : MySQLCatalogSet) : MySQLCatalogSet :=
  ⟨[], [], false⟩

/-- Catalog-mirror states reachable from a fresh mirror by CreateEntry,
DropEntry (with any remote outcome) and ClearEntries. -/
inductive Reachable : MySQLCatalogSet → Prop where
  | init : Reachable emptyCatalogSet
  | create {s : MySQLCatalogSet} {e e2 : CatalogEntry} {s2 : MySQLCatalogSet} :
      Reachable s → createEntry e s = .ok (e2, s2) → Reachable s2
  | drop {s : MySQLCatalogSet} {q : String → Except Unit Unit} {info : DropInfo}
      {res : Except Unit Unit} {s2 : MySQLCatalogSet} :
      Reachable s → dropEntry q info s = (res, s2) → Reachable s2
  | clear {s s2 : MySQLCatalogSet} :
      Reachable s → clearEntries s = s2 → Reachable s2

/-- The mirror built by a sequence of CreateEntry operations on a fresh
mirror. -/
def buildFromCreates (es : List CatalogEntry) : MySQLCatalogSet :=
  es.foldl (fun s e => createEntryState e s) emptyCatalogSet

/-- Modelled from the spec: the comparison operators the translator
supports (§4.4): `=`, `<`, `<=`, `>`, `>=`, `<>`. -/
inductive FilterComparison where
  | equal
  | lessThan
  | lessThanOrEqualTo
  | greaterThan
  | greaterThanOrEqualTo
  | notEqual
deriving DecidableEq, Repr

/-- Modelled from the spec: `MySQLFilterPushdown::TransformComparision`,
the SQL spelling of each supported comparison operator. -/
def comparisonString : FilterComparison → String
  | .equal => "="
  | .lessThan => "<"
  | .lessThanOrEqualTo => "<="
  | .greaterThan => ">"
  | .greaterThanOrEqualTo => ">="
  | .notEqual => "<>"

/-- Modelled from the spec: the predicate tree handled by the
filter-pushdown translator (§3 PredicateNode, §4.4) — the translator's
implementation is not among the provided sources, only its declaration
in `mysql_filter_pushdown.hpp`.  Supported kinds: constant comparison,
conjunction (AND of children), IN over constants; every other kind is
the `unsupported` node.  Constants are carried as their rendered string,
which the translator passes through the literal-quoting helper. -/
inductive TableFilter where
  | constantComparison (op : FilterComparison) (value : String)
  | conjunctionAnd (children : List TableFilter)
  | inFilter (values : List String)
  | unsupported

/-- Modelled from the spec: translation of a single filter against an
already-identifier-quoted column name (§4.4, §6): a supported filter
yields a parenthesized term — `(col OP lit)` for a comparison,
`(col IN (lit, lit, ...))` for set membership, the AND-join of the
supported children for a conjunction — and an unsupported filter (or a
conjunction none of whose children are supported) yields no term. -/
def transformFilter (column_name : String) : TableFilter → Option String
  | .constantComparison op v =>
    some ("(" ++ column_name ++ " " ++ comparisonString op ++ " " ++ writeLiteral v ++ ")")
  | .inFilter values =>
    some ("(" ++ column_name ++ " IN (" ++
          String.intercalate ", " (values.map writeLiteral) ++ "))")
  | .conjunctionAnd children =>
    let parts := transformFilterList column_name children
    if parts.isEmpty then none else some (String.intercalate " AND " parts)
  | .unsupported => none
where
  /-- Translates a child list, keeping the supported children's terms. -/
  transformFilterList (column_name : String) : List TableFilter → List String
    | [] => []
    | f :: rest =>
      match transformFilter column_name f with
      | none => transformFilterList column_name rest
      | some t => t :: transformFilterList column_name rest

/-- Modelled from the spec: `MySQLFilterPushdown::TransformFilters`
(§4.4): walks the filters attached to column indices, resolves each
column index to its name through `column_ids` and `names`, passes the
name through the identifier-quoting helper, and joins the supported
filters' parenthesized terms with " AND "; unsupported filters are
silently excluded. -/
def transformFilters (column_ids : List Nat) (filters : List (Nat × TableFilter))
    (names : List String) : String :=
  let terms := filters.filterMap fun p =>
    transformFilter (writeIdentifier (names.getD (column_ids.getD p.1 0) "")) p.2
  String.intercalate " AND " terms

/-! Theorems. -/

lemma escapeQuotesChars_eq_flatMap (quote : Char) (l : List Char) :
    escapeQuotesChars quote l = specEscapeQuoteOnly quote l := by
  induction l with
  | nil => rfl
  | cons c rest ih =>
    by_cases h : c = quote <;>
      simp [escapeQuotesChars, specEscapeQuoteOnly, h, List.flatMap_cons] <;>
      simpa [specEscapeQuoteOnly] using ih

/-- C1: counterexample — on the input `a\b` (a backslash between two
letters), `WriteIdentifier` and `WriteLiteral` do not escape the embedded
backslash, contradicting the claimed form in which every embedded
backslash is escaped by a preceding backslash. -/
theorem C1_counterexample :
    writeIdentifier "a\\b" ≠ specWriteIdentifier "a\\b" ∧
    writeLiteral "a\\b" ≠ specWriteLiteral "a\\b" := by
  decide

/-- C1 (amended): for every string `s`, `WriteIdentifier s` is `s`
wrapped in backticks with every embedded backtick escaped by a preceding
backslash, and `WriteLiteral s` is `s` wrapped in single quotes with
every embedded single quote escaped by a preceding backslash; embedded
backslashes are not escaped by either function. -/
theorem C1_quoting_amended (s : String) :
    writeIdentifier s =
      ⟨backtickChar :: specEscapeQuoteOnly backtickChar s.data ++ [backtickChar]⟩ ∧
    writeLiteral s =
      ⟨singleQuoteChar :: specEscapeQuoteOnly singleQuoteChar s.data ++ [singleQuoteChar]⟩ := by
  constructor <;>
    simp [writeIdentifier, writeLiteral, writeQuoted, escapeQuotes, String.ext_iff,
          String.data_append, escapeQuotesChars_eq_flatMap, String.singleton]

/-- C3: evaluation of the port parser at the divergence point.  The
source's `PORT_MAX` is 65353 (a typo for the TCP maximum 65535, flagged
in the specification's design notes), so ports 65354-65535 are rejected
although the claim says every value in 0..65535 succeeds; non-numeric
and far out-of-range values are rejected as the claim states. -/
theorem C3_port_bounds_eval :
    parsePort "65400" = .error () ∧ parsePort "65535" = .error () ∧
    parsePort "65354" = .error () ∧ parsePort "65353" = .ok 65353 ∧
    parsePort "3306" = .ok 3306 ∧ parsePort "0" = .ok 0 ∧
    parsePort "99999" = .error () ∧ parsePort "abc" = .error () :=
  ⟨rfl, rfl, rfl, rfl, rfl, rfl, rfl, rfl⟩

/-- C5: if the remote DROP statement issued by `DropEntry` fails, the
local catalog-mirror state is unchanged: the whole call returns the
error with the original state, so every entry previously retrievable by
the lookup stays retrievable. -/
theorem C5_dropEntry_remote_failure (q : String → Except Unit Unit)
    (info : DropInfo) (s : MySQLCatalogSet)
    (h : q (dropQuery info) = .error ()) :
    dropEntry q info s = (.error (), s) ∧
    ∀ n, lookupEntry (dropEntry q info s).2 n = lookupEntry s n := by
  simp [dropEntry, h]

/-- C5 witness: a concrete drop whose remote query throws leaves the
concrete one-entry mirror untouched. -/
theorem C5_dropEntry_remote_failure_witness :
    dropEntry (fun _ => .error ()) ⟨.table_entry, "tbl", .throw_exception, false⟩
        ⟨[("tbl", ⟨"tbl", 0⟩)], [("tbl", "tbl")], true⟩ =
      (.error (), ⟨[("tbl", ⟨"tbl", 0⟩)], [("tbl", "tbl")], true⟩) :=
  (C5_dropEntry_remote_failure (fun _ => .error ())
    ⟨.table_entry, "tbl", .throw_exception, false⟩
    ⟨[("tbl", ⟨"tbl", 0⟩)], [("tbl", "tbl")], true⟩ rfl).1

/-- C6: `ToMySQLType` fails for every list, struct, map, and union input;
maps the three non-microsecond timestamp precisions to the single
supported timestamp kind; widens the 128-bit integer to double; and
returns boolean, the eight integer widths, float, double, blob, date,
decimal, the naive and zone-aware timestamps, and text unchanged. -/
theorem C6_toMySQLType_spec :
    (∀ child, toMySQLType (.list child) = .error ()) ∧
    (∀ fields, toMySQLType (.struct fields) = .error ()) ∧
    (∀ k v, toMySQLType (.map k v) = .error ()) ∧
    (∀ ms, toMySQLType (.union ms) = .error ()) ∧
    toMySQLType .timestamp_sec = .ok .timestamp ∧
    toMySQLType .timestamp_ms = .ok .timestamp ∧
    toMySQLType .timestamp_ns = .ok .timestamp ∧
    toMySQLType .hugeint = .ok .double ∧
    toMySQLType .boolean = .ok .boolean ∧
    toMySQLType .tinyint = .ok .tinyint ∧
    toMySQLType .smallint = .ok .smallint ∧
    toMySQLType .integer = .ok .integer ∧
    toMySQLType .bigint = .ok .bigint ∧
    toMySQLType .utinyint = .ok .utinyint ∧
    toMySQLType .usmallint = .ok .usmallint ∧
    toMySQLType .uinteger = .ok .uinteger ∧
    toMySQLType .ubigint = .ok .ubigint ∧
    toMySQLType .float = .ok .float ∧
    toMySQLType .double = .ok .double ∧
    toMySQLType .blob = .ok .blob ∧
    toMySQLType .date = .ok .date ∧
    (∀ w sc, toMySQLType (.decimal w sc) = .ok (.decimal w sc)) ∧
    toMySQLType .timestamp = .ok .timestamp ∧
    toMySQLType .timestamp_tz = .ok .timestamp_tz ∧
    toMySQLType .varchar = .ok .varchar :=
  ⟨fun _ => rfl, fun _ => rfl, fun _ _ => rfl, fun _ => rfl, rfl, rfl, rfl, rfl,
   rfl, rfl, rfl, rfl, rfl, rfl, rfl, rfl, rfl, rfl, rfl, rfl, rfl,
   fun _ _ => rfl, rfl, rfl, rfl⟩

/-- C7: for a remote type named `tinyint`, the mapper returns boolean
exactly when the raw column type is `tinyint(1)` and the session setting
`mysql_tinyint1_as_boolean` is present and true; otherwise it returns
unsigned tinyint when the raw column-type string contains the substring
`unsigned` and signed tinyint when it does not. -/
theorem C7_tinyint_mapping (ctx : SessionSettings) (ct : String) (p sc : Int) :
    (ct = "tinyint(1)" ∧ ctx.mysql_tinyint1_as_boolean = some true →
      typeToLogicalType ctx ⟨"tinyint", ct, p, sc⟩ = .boolean) ∧
    (¬ (ct = "tinyint(1)" ∧ ctx.mysql_tinyint1_as_boolean = some true) →
      typeToLogicalType ctx ⟨"tinyint", ct, p, sc⟩ =
        if strContains ct "unsigned" then .utinyint else .tinyint) := by
  constructor
  · rintro ⟨h1, h2⟩
    simp [typeToLogicalType, h1, h2]
  · intro h
    by_cases hct : ct = "tinyint(1)"
    · by_cases hset : ctx.mysql_tinyint1_as_boolean = some true
      · exact absurd ⟨hct, hset⟩ h
      · simp [typeToLogicalType, hct, hset]
    · simp [typeToLogicalType, hct]

/-- C7 witness: the three concrete cases of the spec's test vectors. -/
theorem C7_tinyint_mapping_witness :
    typeToLogicalType ⟨some true, none⟩ ⟨"tinyint", "tinyint(1)", 0, 0⟩ = .boolean ∧
    typeToLogicalType ⟨some false, none⟩ ⟨"tinyint", "tinyint(1)", 0, 0⟩ = .tinyint ∧
    typeToLogicalType ⟨none, none⟩ ⟨"tinyint", "tinyint(3) unsigned", 0, 0⟩ = .utinyint := by
  refine ⟨(C7_tinyint_mapping ⟨some true, none⟩ "tinyint(1)" 0 0).1 ⟨rfl, rfl⟩, ?_, ?_⟩
  · have h := (C7_tinyint_mapping ⟨some false, none⟩ "tinyint(1)" 0 0).2 (by simp)
    rw [h, show strContains "tinyint(1)" "unsigned" = false from rfl]
    rfl
  · have h := (C7_tinyint_mapping ⟨none, none⟩ "tinyint(3) unsigned" 0 0).2 (by simp)
    rw [h, show strContains "tinyint(3) unsigned" "unsigned" = true from rfl]
    rfl

lemma optOfString_of_ne (s : String) (h : s ≠ "") : optOfString s = some s :=
  if_neg h

lemma append_right_ne_empty (a b : String) (hb : b ≠ "") : a ++ b ≠ "" := by
  intro hh
  have hd := congrArg String.data hh
  rw [String.data_append] at hd
  exact hb (String.ext ((List.append_eq_nil.mp hd).2))

lemma append_left_ne_empty (a b : String) (ha : a ≠ "") : a ++ b ≠ "" := by
  intro hh
  have hd := congrArg String.data hh
  rw [String.data_append] at hd
  exact ha (String.ext ((List.append_eq_nil.mp hd).1))

lemma strDrop1_workload (w : String) : strDrop1 ("workload=" ++ w) = "orkload=" ++ w :=
  rfl

/-- C9: `Connect` never passes the configured database name to the
driver: the driver arguments are independent of the `db` field of the
parsed parameters, and the `db` argument actually passed is the host
string, with `?workload=<tag>` appended when a workload tag is set and
the host has no `?`, and with `&orkload=<tag>` (the source appends `&`
plus `substr(1)` of `workload=<tag>`) when the host already contains
`?`. -/
theorem C9_connect_db_argument (config : MySQLConnectionParameters) :
    (∀ d, connectArgs { config with db := d } = connectArgs config) ∧
    (config.workload = "" → (connectArgs config).db = optOfString config.host) ∧
    (config.workload ≠ "" →
      (connectArgs config).db =
        some (if strContains config.host "?"
              then config.host ++ "&orkload=" ++ config.workload
              else config.host ++ "?workload=" ++ config.workload)) := by
  refine ⟨fun d => rfl, fun h => by simp [connectArgs, h], fun h => ?_⟩
  have hwp : ("workload=" ++ config.workload) ≠ "" :=
    append_left_ne_empty _ _ (by decide)
  by_cases hq : strContains config.host "?"
  · have harg : config.host ++ "&" ++ strDrop1 ("workload=" ++ config.workload) =
        config.host ++ "&orkload=" ++ config.workload := by
      simp only [String.append_assoc]
      rfl
    simp only [connectArgs, if_neg h, if_neg hwp, hq, if_pos]
    rw [harg]
    exact optOfString_of_ne _ (append_right_ne_empty _ _ h)
  · have harg : config.host ++ "?" ++ ("workload=" ++ config.workload) =
        config.host ++ "?workload=" ++ config.workload := by
      simp only [String.append_assoc]
      rfl
    simp only [connectArgs, if_neg h, if_neg hwp, hq, if_neg, Bool.false_eq_true,
               if_false]
    rw [harg]
    exact optOfString_of_ne _ (append_right_ne_empty _ _ h)

/-- C9 witness: concrete configurations with the database field set show
the driver's `db` argument is the host-derived string, not the `db`
field. -/
theorem C9_connect_db_argument_witness :
    (connectArgs { host := "h", db := "mydb" }).db = some "h" ∧
    (connectArgs { host := "h", db := "mydb", workload := "w" }).db = some "h?workload=w" :=
  ⟨(C9_connect_db_argument { host := "h", db := "mydb" }).2.1 rfl,
   by
    have h := (C9_connect_db_argument { host := "h", db := "mydb", workload := "w" }).2.2
      (by decide)
    rw [h, show strContains "h" "?" = false from rfl]
    rfl⟩

lemma populate_is_loaded (es : List CatalogEntry) (s : MySQLCatalogSet) :
    (populate es s).is_loaded = s.is_loaded := by
  induction es generalizing s with
  | nil => rfl
  | cons e rest ih =>
    by_cases he : e.name = ""
    · simpa [populate, he] using ih s
    · simpa [populate, he, createEntryState] using ih (createEntryState e s)

/-- C10: `GetEntry` and `Scan` set the loaded flag before invoking
discovery — after a first access on an unloaded mirror the state is the
populated state with `is_loaded = true` even when discovery throws; on a
loaded mirror both operations ignore the discovery oracle entirely and
leave the state unchanged (no re-discovery); only `ClearEntries` resets
the flag. -/
theorem C10_lazy_load_flag :
    (∀ load name s, s.is_loaded = false →
      ((getEntry load name s).2.is_loaded = true ∧
       (getEntry load name s).2 = populate load.created { s with is_loaded := true })) ∧
    (∀ load s, s.is_loaded = false →
      ((scanEntries load s).2.is_loaded = true ∧
       (scanEntries load s).2 = populate load.created { s with is_loaded := true })) ∧
    (∀ load load2 name s, s.is_loaded = true →
      getEntry load name s = getEntry load2 name s ∧ (getEntry load name s).2 = s) ∧
    (∀ load load2 s, s.is_loaded = true →
      scanEntries load s = scanEntries load2 s ∧ (scanEntries load s).2 = s) ∧
    ∀ s, (clearEntries s).is_loaded = false := by
  refine ⟨fun load name s h => ?_, fun load s h => ?_,
          fun load load2 name s h => ?_, fun load load2 s h => ?_, fun s => rfl⟩
  · by_cases ht : load.thrown <;>
      simp [getEntry, ensureLoaded, h, ht, populate_is_loaded]
  · by_cases ht : load.thrown <;>
      simp [scanEntries, ensureLoaded, h, ht, populate_is_loaded]
  · simp [getEntry, ensureLoaded, h]
  · simp [scanEntries, ensureLoaded, h]

/-- C10 witness: a throwing first access on a fresh mirror leaves it
loaded, and a clear resets the flag. -/
theorem C10_lazy_load_flag_witness :
    (getEntry ⟨[], true⟩ "x" emptyCatalogSet).2.is_loaded = true ∧
    (clearEntries (getEntry ⟨[], true⟩ "x" emptyCatalogSet).2).is_loaded = false :=
  ⟨(C10_lazy_load_flag.1 ⟨[], true⟩ "x" emptyCatalogSet rfl).1,
   C10_lazy_load_flag.2.2.2.2 _⟩

lemma findExact_eq_none {α : Type} (m : List (String × α)) (k : String)
    (h : ∀ p ∈ m, p.1 ≠ k) : findExact m k = none := by
  induction m with
  | nil => rfl
  | cons p rest ih =>
    simp only [findExact, if_neg (h p (by simp))]
    exact ih fun q hq => h q (by simp [hq])

lemma findCI_eq_none {α : Type} (m : List (String × α)) (k : String)
    (h : ∀ p ∈ m, strLower p.1 ≠ strLower k) : findCI m k = none := by
  induction m with
  | nil => rfl
  | cons p rest ih =>
    simp only [findCI, if_neg (h p (by simp))]
    exact ih fun q hq => h q (by simp [hq])

/-- In a mirror built from case-insensitively distinct entries, exact
lookup of an entry's own name finds that entry. -/
lemma findExact_map_self (l : List CatalogEntry) (e : CatalogEntry)
    (he : e ∈ l)
    (hAll : ∀ a ∈ l, ∀ c ∈ l, a ≠ c → strLower a.name ≠ strLower c.name) :
    findExact (l.map fun c => (c.name, c)) e.name = some e := by
  induction l with
  | nil => cases he
  | cons a t ih =>
    by_cases hae : a.name = e.name
    · by_cases haev : a = e
      · subst haev; simp [findExact]
      · exact absurd (by rw [hae]) (hAll a (by simp) e he haev)
    · have het : e ∈ t := by
        rcases List.mem_cons.mp he with rfl | het
        · exact absurd rfl hae
        · exact het
      simp only [List.map_cons, findExact, if_neg hae]
      exact ih het fun x hx c hc => hAll x (by simp [hx]) c (by simp [hc])

/-- In a mirror built from case-insensitively distinct entries, the
case-insensitive index resolves any spelling of an entry's name to the
stored name. -/
lemma findCI_map_self (l : List CatalogEntry) (e : CatalogEntry)
    (he : e ∈ l) (m : String) (hm : strLower m = strLower e.name)
    (hAll : ∀ a ∈ l, ∀ c ∈ l, a ≠ c → strLower a.name ≠ strLower c.name) :
    findCI (l.map fun c => (c.name, c.name)) m = some (e.name, e.name) := by
  induction l with
  | nil => cases he
  | cons a t ih =>
    by_cases hae : strLower a.name = strLower m
    · by_cases haev : a = e
      · subst haev; simp [findCI, hae]
      · exact absurd (hae.trans hm) (hAll a (by simp) e he haev)
    · have het : e ∈ t := by
        rcases List.mem_cons.mp he with rfl | het
        · exact absurd hm.symm hae
        · exact het
      simp only [List.map_cons, findCI, if_neg hae]
      exact ih het fun x hx c hc => hAll x (by simp [hx]) c (by simp [hc])

/-- Lookup in a consistently-indexed mirror state: with case-insensitively
distinct stored names, every entry is found under any spelling that
case-folds to its name. -/
lemma lookupEntry_consistent (l : List CatalogEntry) (b : Bool)
    (e : CatalogEntry) (he : e ∈ l) (m : String)
    (hm : strLower m = strLower e.name)
    (hAll : ∀ a ∈ l, ∀ c ∈ l, a ≠ c → strLower a.name ≠ strLower c.name) :
    lookupEntry ⟨l.map fun c => (c.name, c), l.map fun c => (c.name, c.name), b⟩ m
      = some e := by
  by_cases hme : m = e.name
  · subst hme
    simp [lookupEntry, findExact_map_self l e he hAll]
  · have h1 : findExact (l.map fun c => (c.name, c)) m = none := by
      apply findExact_eq_none
      intro p hp
      obtain ⟨c, hc, rfl⟩ := List.mem_map.mp hp
      intro hcm
      have hcm2 : c.name = m := hcm
      by_cases hce : c = e
      · exact hme (by rw [← hcm2, hce])
      · exact hAll c hc e he hce (by rw [hcm2, hm])
    simp [lookupEntry, h1, findCI_map_self l e he m hm hAll,
          findExact_map_self l e he hAll]

lemma buildFromCreates_eq (es : List CatalogEntry)
    (hdist : es.Pairwise fun a c => strLower a.name ≠ strLower c.name) :
    buildFromCreates es =
      ⟨(es.map fun e => (e.name, e)).reverse,
       (es.map fun e => (e.name, e.name)).reverse, false⟩ := by
  induction es using List.reverseRecOn with
  | nil => rfl
  | append_singleton es e ih =>
    have hpair := List.pairwise_append.mp hdist
    have hce : ∀ a ∈ es, strLower a.name ≠ strLower e.name :=
      fun a ha => hpair.2.2 a ha e (by simp)
    have h1 : findCI ((es.map fun a => (a.name, a.name)).reverse) e.name = none := by
      apply findCI_eq_none
      intro p hp
      rw [List.mem_reverse] at hp
      obtain ⟨a, ha, rfl⟩ := List.mem_map.mp hp
      exact hce a ha
    have h2 : findExact ((es.map fun a => (a.name, a)).reverse) e.name = none := by
      apply findExact_eq_none
      intro p hp
      rw [List.mem_reverse] at hp
      obtain ⟨a, ha, rfl⟩ := List.mem_map.mp hp
      intro hne
      have hne2 : a.name = e.name := hne
      exact hce a ha (by rw [hne2])
    unfold buildFromCreates at ih ⊢
    rw [List.foldl_append, ih hpair.1]
    simp [createEntryState, insertCINew, insertNew, h1, h2]

/-- The fold state of `buildFromCreates` always has `is_loaded = false`. -/
lemma buildFromCreates_not_loaded (es : List CatalogEntry) :
    (buildFromCreates es).is_loaded = false := by
  have h : ∀ (l : List CatalogEntry) (s : MySQLCatalogSet),
      (l.foldl (fun s e => createEntryState e s) s).is_loaded = s.is_loaded := by
    intro l
    induction l with
    | nil => intro s; rfl
    | cons e rest ih => intro s; exact ih (createEntryState e s)
  exact h es emptyCatalogSet

/-- C4: counterexample — the state reached by CreateEntry("foo"),
DropEntry("foo") (remote success), CreateEntry("Foo") stores the entry
"Foo", yet GetEntry("foo") — a differently-cased spelling of the stored
name — returns nothing: DropEntry leaves the stale "foo"→"foo" binding
in the case-insensitive index and CreateEntry's insert does not replace
it, so the fallback resolves "foo" to a stored name that no longer
exists. -/
theorem C4_counterexample :
    Reachable ⟨[("Foo", ⟨"Foo", 1⟩)], [("foo", "foo")], false⟩ ∧
    findExact (MySQLCatalogSet.entries ⟨[("Foo", ⟨"Foo", 1⟩)], [("foo", "foo")], false⟩)
      "Foo" = some ⟨"Foo", 1⟩ ∧
    strLower "foo" = strLower "Foo" ∧
    (getEntry ⟨[], false⟩ "foo" ⟨[("Foo", ⟨"Foo", 1⟩)], [("foo", "foo")], false⟩).1 =
      .ok none := by
  refine ⟨?_, rfl, rfl, rfl⟩
  have h0 : Reachable emptyCatalogSet := .init
  have h1 := @Reachable.create emptyCatalogSet ⟨"foo", 0⟩ ⟨"foo", 0⟩
    ⟨[("foo", ⟨"foo", 0⟩)], [("foo", "foo")], false⟩ h0 rfl
  have h2 := @Reachable.drop ⟨[("foo", ⟨"foo", 0⟩)], [("foo", "foo")], false⟩
    (fun _ => .ok ()) ⟨.table_entry, "foo", .throw_exception, false⟩ (.ok ())
    ⟨[], [("foo", "foo")], false⟩ h1 rfl
  exact @Reachable.create ⟨[], [("foo", "foo")], false⟩ ⟨"Foo", 1⟩ ⟨"Foo", 1⟩
    ⟨[("Foo", ⟨"Foo", 1⟩)], [("foo", "foo")], false⟩ h2 rfl

/-- C4 (amended): in every catalog-mirror state, every stored entry is
returned by the lookup for its exact stored name; and in every state
built by a sequence of CreateEntry operations on a fresh (or cleared)
mirror whose created names are pairwise distinct case-insensitively,
every stored entry is returned by GetEntry for any spelling that
case-folds to its name — in particular GetEntry("Foo") returns the same
entry as GetEntry("foo") when only "foo" was created. -/
theorem C4_lookup_amended :
    (∀ (s : MySQLCatalogSet) (n : String) (e : CatalogEntry),
      findExact s.entries n = some e → lookupEntry s n = some e) ∧
    (∀ es : List CatalogEntry, (∀ a ∈ es, a.name ≠ "") →
      (es.Pairwise fun a c => strLower a.name ≠ strLower c.name) →
      Reachable (buildFromCreates es) ∧
      ∀ f ∈ es, ∀ m, strLower m = strLower f.name →
        (getEntry ⟨[], false⟩ m (buildFromCreates es)).1 = .ok (some f)) := by
  constructor
  · intro s n e h
    simp [lookupEntry, h]
  · intro es hname hdist
    constructor
    · clear hdist
      induction es using List.reverseRecOn with
      | nil => exact .init
      | append_singleton es e ih =>
        have hr := ih fun a ha => hname a (by simp [ha])
        have heq : createEntry e (buildFromCreates es) =
            .ok (e, createEntryState e (buildFromCreates es)) := by
          unfold createEntry
          rw [if_neg (hname e (by simp))]
        have hb : buildFromCreates (es ++ [e]) =
            createEntryState e (buildFromCreates es) := by
          unfold buildFromCreates
          rw [List.foldl_append]
          rfl
        rw [hb]
        exact @Reachable.create (buildFromCreates es) e e
          (createEntryState e (buildFromCreates es)) hr heq
    · intro f hf m hm
      have hAll : ∀ a ∈ es, ∀ c ∈ es, a ≠ c → strLower a.name ≠ strLower c.name := by
        intro a ha c hc hac
        exact List.Pairwise.forall (fun x y h => Ne.symm h) hdist ha hc hac
      have hAllrev : ∀ a ∈ es.reverse, ∀ c ∈ es.reverse,
          a ≠ c → strLower a.name ≠ strLower c.name := by
        intro a ha c hc
        rw [List.mem_reverse] at ha hc
        exact hAll a ha c hc
      rw [buildFromCreates_eq es hdist]
      have hlook := lookupEntry_consistent es.reverse true f
        (by rw [List.mem_reverse]; exact hf) m hm hAllrev
      simp only [List.map_reverse] at hlook
      simp [getEntry, ensureLoaded, populate, hlook]

/-- C4 amended witness: lookup by exact name in a concrete state, and
case-insensitive GetEntry on a mirror where only "foo" was created. -/
theorem C4_lookup_amended_witness :
    lookupEntry ⟨[("Foo", ⟨"Foo", 1⟩)], [], false⟩ "Foo" = some ⟨"Foo", 1⟩ ∧
    (getEntry ⟨[], false⟩ "Foo" (buildFromCreates [⟨"foo", 7⟩])).1 =
      .ok (some ⟨"foo", 7⟩) ∧
    (getEntry ⟨[], false⟩ "foo" (buildFromCreates [⟨"foo", 7⟩])).1 =
      .ok (some ⟨"foo", 7⟩) :=
  ⟨C4_lookup_amended.1 ⟨[("Foo", ⟨"Foo", 1⟩)], [], false⟩ "Foo" ⟨"Foo", 1⟩ rfl,
   (C4_lookup_amended.2 [⟨"foo", 7⟩] (by simp) (by simp)).2 ⟨"foo", 7⟩ (by simp)
     "Foo" rfl,
   (C4_lookup_amended.2 [⟨"foo", 7⟩] (by simp) (by simp)).2 ⟨"foo", 7⟩ (by simp)
     "foo" rfl⟩

lemma mem_setInsert_of_mem (s : List String) (x y : String) (h : y ∈ s) :
    y ∈ setInsert s x := by
  unfold setInsert
  split
  · exact h
  · exact List.mem_cons_of_mem _ h

lemma mem_setInsert_self (s : List String) (x : String) : x ∈ setInsert s x := by
  unfold setInsert
  split
  · assumption
  · exact List.mem_cons_self _ _

/-- One step of the option dispatch grows `set_options` monotonically
and changes only the field whose canonical option name it records. -/
lemma applyOption_fields (k v : String) (r : MySQLConnectionParameters)
    (s : List String) (r2 : MySQLConnectionParameters) (s2 : List String)
    (h : applyOption k v r s = .ok (r2, s2)) :
    (∀ x ∈ s, x ∈ s2) ∧
    ("host" ∉ s2 → r2.host = r.host) ∧
    ("user" ∉ s2 → r2.user = r.user) ∧
    ("password" ∉ s2 → r2.passwd = r.passwd) ∧
    ("database" ∉ s2 → r2.db = r.db) ∧
    ("port" ∉ s2 → r2.port = r.port) ∧
    ("socket" ∉ s2 → r2.unix_socket = r.unix_socket) ∧
    ("workload" ∉ s2 → r2.workload = r.workload) := by
  unfold applyOption at h
  split at h
  · obtain ⟨hr, hs⟩ := Prod.mk.injEq .. ▸ Except.ok.inj h
    subst hr hs
    exact ⟨fun x hx => mem_setInsert_of_mem _ _ _ hx,
      fun hn => absurd (mem_setInsert_self _ _) hn,
      fun _ => rfl, fun _ => rfl, fun _ => rfl, fun _ => rfl, fun _ => rfl,
      fun _ => rfl⟩
  split at h
  · obtain ⟨hr, hs⟩ := Prod.mk.injEq .. ▸ Except.ok.inj h
    subst hr hs
    exact ⟨fun x hx => mem_setInsert_of_mem _ _ _ hx, fun _ => rfl,
      fun hn => absurd (mem_setInsert_self _ _) hn,
      fun _ => rfl, fun _ => rfl, fun _ => rfl, fun _ => rfl, fun _ => rfl⟩
  split at h
  · obtain ⟨hr, hs⟩ := Prod.mk.injEq .. ▸ Except.ok.inj h
    subst hr hs
    exact ⟨fun x hx => mem_setInsert_of_mem _ _ _ hx, fun _ => rfl, fun _ => rfl,
      fun hn => absurd (mem_setInsert_self _ _) hn,
      fun _ => rfl, fun _ => rfl, fun _ => rfl, fun _ => rfl⟩
  split at h
  · obtain ⟨hr, hs⟩ := Prod.mk.injEq .. ▸ Except.ok.inj h
    subst hr hs
    exact ⟨fun x hx => mem_setInsert_of_mem _ _ _ hx, fun _ => rfl, fun _ => rfl,
      fun _ => rfl,
      fun hn => absurd (mem_setInsert_self _ _) hn,
      fun _ => rfl, fun _ => rfl, fun _ => rfl⟩
  split at h
  · match hp : parsePort v with
    | .error e =>
      rw [hp] at h
      exact Except.noConfusion h
    | .ok pv =>
      rw [hp] at h
      obtain ⟨hr, hs⟩ := Prod.mk.injEq .. ▸ Except.ok.inj h
      subst hr hs
      exact ⟨fun x hx => mem_setInsert_of_mem _ _ _ hx, fun _ => rfl, fun _ => rfl,
        fun _ => rfl, fun _ => rfl,
        fun hn => absurd (mem_setInsert_self _ _) hn,
        fun _ => rfl, fun _ => rfl⟩
  split at h
  · obtain ⟨hr, hs⟩ := Prod.mk.injEq .. ▸ Except.ok.inj h
    subst hr hs
    exact ⟨fun x hx => mem_setInsert_of_mem _ _ _ hx, fun _ => rfl, fun _ => rfl,
      fun _ => rfl, fun _ => rfl, fun _ => rfl,
      fun hn => absurd (mem_setInsert_self _ _) hn,
      fun _ => rfl⟩
  split at h
  · obtain ⟨hr, hs⟩ := Prod.mk.injEq .. ▸ Except.ok.inj h
    subst hr hs
    exact ⟨fun x hx => mem_setInsert_of_mem _ _ _ hx, fun _ => rfl, fun _ => rfl,
      fun _ => rfl, fun _ => rfl, fun _ => rfl, fun _ => rfl,
      fun hn => absurd (mem_setInsert_self _ _) hn⟩
  · exact absurd h (by simp)

/-- The option loop grows `set_options` monotonically, and a field whose
canonical option name is absent from the final `set_options` is never
assigned. -/
lemma parseOptionsLoop_fields (fuel : Nat) :
    ∀ (l : List Char) (r : MySQLConnectionParameters) (s : List String)
      (r2 : MySQLConnectionParameters) (s2 : List String),
      parseOptionsLoop fuel l r s = .ok (r2, s2) →
      (∀ x ∈ s, x ∈ s2) ∧
      ("host" ∉ s2 → r2.host = r.host) ∧
      ("user" ∉ s2 → r2.user = r.user) ∧
      ("password" ∉ s2 → r2.passwd = r.passwd) ∧
      ("database" ∉ s2 → r2.db = r.db) ∧
      ("port" ∉ s2 → r2.port = r.port) ∧
      ("socket" ∉ s2 → r2.unix_socket = r.unix_socket) ∧
      ("workload" ∉ s2 → r2.workload = r.workload) := by
  induction fuel with
  | zero => intro l r s r2 s2 h; exact Except.noConfusion h
  | succ fuel ih =>
    intro l r s r2 s2 h
    unfold parseOptionsLoop at h
    split at h
    · exact Except.noConfusion h
    · obtain ⟨hr, hs⟩ := Prod.mk.injEq .. ▸ Except.ok.inj h
      subst hr hs
      exact ⟨fun x hx => hx, fun _ => rfl, fun _ => rfl, fun _ => rfl, fun _ => rfl,
        fun _ => rfl, fun _ => rfl, fun _ => rfl⟩
    · split at h
      · exact Except.noConfusion h
      · split at h
        · split at h
          · exact Except.noConfusion h
          · exact Except.noConfusion h
          · split at h
            · exact Except.noConfusion h
            · rename_i r1 s1 hao
              obtain ⟨m1, f1, f2, f3, f4, f5, f6, f7⟩ :=
                applyOption_fields _ _ r s r1 s1 hao
              obtain ⟨m2, g1, g2, g3, g4, g5, g6, g7⟩ := ih _ r1 s1 r2 s2 h
              refine ⟨fun x hx => m2 x (m1 x hx), ?_, ?_, ?_, ?_, ?_, ?_, ?_⟩
              · intro hn; rw [g1 hn, f1 fun hi => hn (m2 _ hi)]
              · intro hn; rw [g2 hn, f2 fun hi => hn (m2 _ hi)]
              · intro hn; rw [g3 hn, f3 fun hi => hn (m2 _ hi)]
              · intro hn; rw [g4 hn, f4 fun hi => hn (m2 _ hi)]
              · intro hn; rw [g5 hn, f5 fun hi => hn (m2 _ hi)]
              · intro hn; rw [g6 hn, f6 fun hi => hn (m2 _ hi)]
              · intro hn; rw [g7 hn, f7 fun hi => hn (m2 _ hi)]
        · exact Except.noConfusion h

/-- A field whose canonical option name is absent from the `set_options`
produced by the parse phase still holds its zero/empty default. -/
lemma parsePhase_defaults (dsn : String) (p : MySQLConnectionParameters)
    (s : List String) (h : parsePhase dsn = .ok (p, s)) :
    ("host" ∉ s → p.host = "") ∧
    ("user" ∉ s → p.user = "") ∧
    ("password" ∉ s → p.passwd = "") ∧
    ("database" ∉ s → p.db = "") ∧
    ("port" ∉ s → p.port = 0) ∧
    ("socket" ∉ s → p.unix_socket = "") ∧
    ("workload" ∉ s → p.workload = "") := by
  obtain ⟨_, f1, f2, f3, f4, f5, f6, f7⟩ :=
    parseOptionsLoop_fields (dsn.data.length + 1) dsn.data {} [] p s h
  exact ⟨f1, f2, f3, f4, f5, f6, f7⟩

/-- The environment-fallback block: each field of the final record equals
the parsed value when its option was set, and otherwise the environment
value when present or the parsed (default) value when absent. -/
lemma fillEnv_spec (env : String → Option String) (p : MySQLConnectionParameters)
    (s : List String) (r : MySQLConnectionParameters)
    (h : fillEnv env p s = .ok r) :
    r.host = (if "host" ∈ s then p.host else (env "MYSQL_HOST").getD p.host) ∧
    r.user = (if "user" ∈ s then p.user else (env "MYSQL_USER").getD p.user) ∧
    r.passwd = (if "password" ∈ s then p.passwd else (env "MYSQL_PWD").getD p.passwd) ∧
    r.db = (if "database" ∈ s then p.db else (env "MYSQL_DATABASE").getD p.db) ∧
    r.unix_socket =
      (if "socket" ∈ s then p.unix_socket
       else (env "MYSQL_UNIX_PORT").getD p.unix_socket) ∧
    r.workload = p.workload ∧
    ("port" ∈ s → r.port = p.port) ∧
    ("port" ∉ s →
      match env "MYSQL_TCP_PORT" with
      | none => r.port = p.port
      | some v => parsePort v = .ok r.port) := by
  by_cases hp : "port" ∈ s
  · simp only [fillEnv, hp, if_true, ite_true, pure_bind] at h
    obtain rfl := (Except.ok.inj h).symm
    exact ⟨rfl, rfl, rfl, rfl, rfl, rfl, fun _ => rfl, fun hn => absurd hp hn⟩
  · cases he : env "MYSQL_TCP_PORT" with
    | none =>
      simp only [fillEnv, hp, he, if_false, ite_false, pure_bind] at h
      obtain rfl := (Except.ok.inj h).symm
      exact ⟨rfl, rfl, rfl, rfl, rfl, rfl, fun hin => absurd hin hp, fun _ => rfl⟩
    | some v =>
      simp only [fillEnv, hp, he, if_false, ite_false] at h
      match hpv : parsePort v with
      | .error e =>
        rw [hpv] at h
        exact Except.noConfusion h
      | .ok pv =>
        rw [hpv] at h
        obtain rfl := (Except.ok.inj h).symm
        exact ⟨rfl, rfl, rfl, rfl, rfl, rfl, fun hin => absurd hin hp, fun _ => hpv⟩

/-- C2: a field explicitly set in the DSN keeps the parse-phase value
(which depends only on the DSN, hence is identical across any two
environments); a field not set is filled from its environment variable
when present (the port value passing through the port parser) and keeps
its zero/empty default when absent.  `p` and `s` are the record and the
set-options produced by the environment-independent parse phase. -/
theorem C2_env_fallback (dsn : String) (env : String → Option String)
    (p : MySQLConnectionParameters) (s : List String)
    (r : MySQLConnectionParameters)
    (hp : parsePhase dsn = .ok (p, s))
    (h : parseConnectionParameters env dsn = .ok r) :
    (("host" ∈ s → r.host = p.host) ∧
      ("host" ∉ s → r.host = (env "MYSQL_HOST").getD "")) ∧
    (("user" ∈ s → r.user = p.user) ∧
      ("user" ∉ s → r.user = (env "MYSQL_USER").getD "")) ∧
    (("password" ∈ s → r.passwd = p.passwd) ∧
      ("password" ∉ s → r.passwd = (env "MYSQL_PWD").getD "")) ∧
    (("database" ∈ s → r.db = p.db) ∧
      ("database" ∉ s → r.db = (env "MYSQL_DATABASE").getD "")) ∧
    (("socket" ∈ s → r.unix_socket = p.unix_socket) ∧
      ("socket" ∉ s → r.unix_socket = (env "MYSQL_UNIX_PORT").getD "")) ∧
    r.workload = p.workload ∧
    ("port" ∈ s → r.port = p.port) ∧
    ("port" ∉ s →
      match env "MYSQL_TCP_PORT" with
      | none => r.port = 0
      | some v => parsePort v = .ok r.port) := by
  have hf : fillEnv env p s = .ok r := by
    unfold parseConnectionParameters at h
    rw [hp] at h
    exact h
  obtain ⟨e1, e2, e3, e4, e5, e6, e7, e8⟩ := fillEnv_spec env p s r hf
  obtain ⟨d1, d2, d3, d4, d5, d6, d7⟩ := parsePhase_defaults dsn p s hp
  refine ⟨⟨fun hin => by rw [e1, if_pos hin], fun hn => by rw [e1, if_neg hn, d1 hn]⟩,
          ⟨fun hin => by rw [e2, if_pos hin], fun hn => by rw [e2, if_neg hn, d2 hn]⟩,
          ⟨fun hin => by rw [e3, if_pos hin], fun hn => by rw [e3, if_neg hn, d3 hn]⟩,
          ⟨fun hin => by rw [e4, if_pos hin], fun hn => by rw [e4, if_neg hn, d4 hn]⟩,
          ⟨fun hin => by rw [e5, if_pos hin], fun hn => by rw [e5, if_neg hn, d6 hn]⟩,
          e6, e7, ?_⟩
  intro hn
  have h8 := e8 hn
  cases he : env "MYSQL_TCP_PORT" with
  | none =>
    rw [he] at h8
    show r.port = 0
    exact (show r.port = p.port from h8).trans (d5 hn)
  | some v =>
    rw [he] at h8
    show parsePort v = .ok r.port
    exact h8

/-- C2 witness: for the DSN `host=h port=3306` under an environment
where only `MYSQL_USER` is set, the set fields keep the DSN values and
the unset user field comes from the environment while the unset database
field keeps its empty default. -/
theorem C2_env_fallback_witness :
    ((parseConnectionParameters
        (fun k => if k = "MYSQL_USER" then some "u" else none)
        "host=h port=3306").map MySQLConnectionParameters.host = .ok "h") ∧
    ((parseConnectionParameters
        (fun k => if k = "MYSQL_USER" then some "u" else none)
        "host=h port=3306").map MySQLConnectionParameters.user = .ok "u") ∧
    ((parseConnectionParameters
        (fun k => if k = "MYSQL_USER" then some "u" else none)
        "host=h port=3306").map MySQLConnectionParameters.db = .ok "") ∧
    ((parseConnectionParameters
        (fun k => if k = "MYSQL_USER" then some "u" else none)
        "host=h port=3306").map MySQLConnectionParameters.port = .ok 3306) := by
  have h := C2_env_fallback "host=h port=3306"
    (fun k => if k = "MYSQL_USER" then some "u" else none)
    ⟨"h", "", "", "", 3306, "", "", 69664⟩ ["port", "host"]
    ⟨"h", "u", "", "", 3306, "", "", 69664⟩ rfl rfl
  have hhost : (⟨"h", "u", "", "", 3306, "", "", 69664⟩ :
      MySQLConnectionParameters).host = "h" := h.1.1 (by decide)
  have huser : (⟨"h", "u", "", "", 3306, "", "", 69664⟩ :
      MySQLConnectionParameters).user = "u" := h.2.1.2 (by decide)
  have hdb : (⟨"h", "u", "", "", 3306, "", "", 69664⟩ :
      MySQLConnectionParameters).db = "" := h.2.2.2.1.2 (by decide)
  have hport : (⟨"h", "u", "", "", 3306, "", "", 69664⟩ :
      MySQLConnectionParameters).port = 3306 := h.2.2.2.2.2.2.1 (by decide)
  exact ⟨congrArg Except.ok hhost, congrArg Except.ok huser,
         congrArg Except.ok hdb, congrArg Except.ok hport⟩

/-- C8: the filter translator joins one parenthesized term per supported
filter with AND; a comparison term passes the column name through the
identifier-quoting helper (applied by `transformFilters`) and the
constant through the literal-quoting helper, as does an IN term for each
constant; an unsupported filter anywhere in the list is silently excluded
from the fragment without affecting the translation of the others.  The
closed conjunct is the spec's test vector: one unsupported node between
two supported comparisons yields exactly the two comparisons AND-joined,
with the backtick inside the identifier escaped. -/
theorem C8_transformFilters_spec :
    (∀ (cids : List Nat) (names : List String) (pre post : List (Nat × TableFilter))
       (ci : Nat),
      transformFilters cids (pre ++ (ci, TableFilter.unsupported) :: post) names =
        transformFilters cids (pre ++ post) names) ∧
    (∀ (col : String) (op : FilterComparison) (v : String),
      transformFilter col (.constantComparison op v) =
        some ("(" ++ col ++ " " ++ comparisonString op ++ " " ++ writeLiteral v ++ ")")) ∧
    (∀ (col : String) (vs : List String),
      transformFilter col (.inFilter vs) =
        some ("(" ++ col ++ " IN (" ++
              String.intercalate ", " (vs.map writeLiteral) ++ "))")) ∧
    transformFilters [0, 1]
      [(0, .constantComparison .equal "x"), (0, .unsupported),
       (1, .constantComparison .greaterThan "y")] ["a`b", "c"] =
      "(`a\\`b` = 'x') AND (`c` > 'y')" := by
  refine ⟨?_, fun col op v => rfl, fun col vs => rfl, ?_⟩
  · intro cids names pre post ci
    simp [transformFilters, List.filterMap_append, List.filterMap_cons, transformFilter]
  · rfl

end MySQLScanner
